import Mathlib

/-!
Verification development for the `visual` repository: stochastic image
transforms (`visual/transforms.py`) and model-wrapping helpers
(`visual/models/utils.py`).

Python's tensors and objects are shallowly embedded: tensors whose numeric
content matters are nested lists of rationals; tensor operations whose
numerics live entirely in the external library (`grid_sample`,
`affine_grid`, `interpolate`) are symbolic constructors carrying exact
shape, dtype and device semantics; mutable objects are passed and returned
explicitly; Python exceptions are `Option.none`.
-/

namespace Visual

/-- Model of the state of Python's global `random` module: an abstract
state advanced by every draw.  The concrete values drawn are an arbitrary
but fixed function of the state; the claims only rely on the stdlib
contract (range of `randint`, determinism after `seed`). -/
abbrev RandState := Nat

/-- Model of `random.seed(a)`: installs a state that is a fixed
deterministic function of the seed alone. -/
def randSeed (a : Nat) : RandState := a + 1

/-- Model of `random.randint(lo, hi)`: returns an integer in `[lo, hi]`
together with the advanced state, and raises `ValueError` (here `none`)
when the range is empty (`hi < lo`). -/
def randint (lo hi : Int) (s : RandState) : Option (Int × RandState) :=
  if hi < lo then none
  else some (lo + (s : Int) % (hi - lo + 1), s + 1)

/-- `_rand_select(xs, seed)` from `visual/transforms.py` lines 28-33:
copies `xs` to a list, reseeds the global module when a seed is given,
draws `idx = random.randint(0, len(xs) - 1)` and returns `xs[idx]`.
A raised `ValueError`/`IndexError` is `none`. -/
def seedOr (seed : Option Nat) (st : RandState) : RandState :=
  match seed with
  | some a => randSeed a
  | none => st

def _rand_select (xs : List α) (seed : Option Nat) (st : RandState) :
    Option (α × RandState) :=
  match randint 0 ((xs.length : Int) - 1) (seedOr seed st) with
  | none => none
  | some (idx, st') =>
    match xs.get? idx.toNat with
    | some v => some (v, st')
    | none => none

/-- `RandomScale.get_params` (`visual/transforms.py` lines 65-67):
delegates to `_rand_select`. -/
def RandomScale.get_params (scales : List α) (seed : Option Nat)
    (st : RandState) : Option (α × RandState) :=
  _rand_select scales seed st

/-- `RandomRotate.get_params` (`visual/transforms.py` lines 99-101):
delegates to `_rand_select`. -/
def RandomRotate.get_params (angles : List α) (seed : Option Nat)
    (st : RandState) : Option (α × RandState) :=
  _rand_select angles seed st

/-- `SpatialJitter.get_params` (`visual/transforms.py` lines 154-158):
reseeds when a seed is given, then draws two offsets with
`random.randint(0, pixels)`. -/
def SpatialJitter.get_params (pixels : Int) (seed : Option Nat)
    (st : RandState) : Option (Int × Int × RandState) :=
  match randint 0 pixels (seedOr seed st) with
  | none => none
  | some (x0, st1) =>
    match randint 0 pixels st1 with
    | none => none
    | some (y0, st2) => some (x0, y0, st2)

/-- `randint` on a non-empty range succeeds and lands in `[lo, hi]`. -/
theorem randint_bounds (lo hi : Int) (s : RandState) (h : lo ≤ hi) :
    ∃ v, randint lo hi s = some (v, s + 1) ∧ lo ≤ v ∧ v ≤ hi := by
  refine ⟨lo + (s : Int) % (hi - lo + 1), ?_, ?_, ?_⟩
  · simp [randint, not_lt.2 h]
  · have hpos : (0 : Int) < hi - lo + 1 := by omega
    have := Int.emod_nonneg (s : Int) (by omega : hi - lo + 1 ≠ 0)
    omega
  · have hpos : (0 : Int) < hi - lo + 1 := by omega
    have := Int.emod_lt_of_pos (s : Int) hpos
    omega

/-- C6: on a non-empty sequence `_rand_select` picks an index in
`0 .. len-1` and returns the element of `xs` at that index; on an empty
sequence the draw fails; `RandomScale.get_params` and
`RandomRotate.get_params` are exactly `_rand_select`. -/
theorem rand_select_safe (xs : List α) (seed : Option Nat) (st : RandState) :
    (xs ≠ [] → ∃ st' i, ∃ h : i < xs.length,
      _rand_select xs seed st = some (xs.get ⟨i, h⟩, st'))
    ∧ (xs = [] → _rand_select xs seed st = none)
    ∧ RandomScale.get_params xs seed st = _rand_select xs seed st
    ∧ RandomRotate.get_params xs seed st = _rand_select xs seed st := by
  refine ⟨?_, ?_, rfl, rfl⟩
  · intro hne
    have hlen : 1 ≤ xs.length := Nat.one_le_iff_ne_zero.2 (by
      simpa [List.length_eq_zero] using hne)
    obtain ⟨v, hv, hv0, hv1⟩ :=
      randint_bounds 0 ((xs.length : Int) - 1) (seedOr seed st) (by
        omega)
    have hidx : v.toNat < xs.length := by omega
    refine ⟨seedOr seed st + 1, v.toNat, hidx, ?_⟩
    simp only [_rand_select, hv, List.get?_eq_get hidx]
  · intro he
    subst he
    simp [_rand_select, randint]

/-- Witness for C6 at a concrete input. -/
theorem rand_select_safe_witness :
    ∃ st' i, ∃ h : i < [(3 : Nat), 7].length,
      _rand_select [(3 : Nat), 7] none 0 = some ([(3 : Nat), 7].get ⟨i, h⟩, st') :=
  (rand_select_safe [(3 : Nat), 7] none 0).1 (by decide)

/-- C8: with a supplied seed, `_rand_select` and `SpatialJitter.get_params`
are deterministic: the incoming global state is irrelevant because the
module is reseeded before each draw. -/
theorem seeded_draws_deterministic (xs : List α) (a : Nat) (p : Int)
    (st1 st2 : RandState) (_hne : xs ≠ []) :
    _rand_select xs (some a) st1 = _rand_select xs (some a) st2
    ∧ SpatialJitter.get_params p (some a) st1
      = SpatialJitter.get_params p (some a) st2 := ⟨rfl, rfl⟩

/-- Witness for C8 at a concrete input. -/
theorem seeded_draws_deterministic_witness :
    _rand_select [(1 : Nat), 2] (some 5) 0 = _rand_select [(1 : Nat), 2] (some 5) 99
    ∧ SpatialJitter.get_params 4 (some 5) 0 = SpatialJitter.get_params 4 (some 5) 99 :=
  seeded_draws_deterministic [(1 : Nat), 2] 5 4 0 99 (by decide)

/-! ### `visual/models/utils.py` -/

/-- Python `dict` assignment `d[k] = v`, on string-keyed dicts embedded as
association lists whose most recent binding comes first. -/
def dictSet (d : List (String × τ)) (k : String) (v : τ) : List (String × τ) :=
  (k, v) :: d.filter (fun kv => kv.1 != k)

/-- Python `dict` lookup `d[k]`, `none` when the key is absent (KeyError). -/
def dictGet? (d : List (String × τ)) (k : String) : Option τ :=
  (d.find? (fun kv => kv.1 == k)).map Prod.snd

theorem dictGet_dictSet (d : List (String × τ)) (k : String) (v : τ) :
    dictGet? (dictSet d k v) k = some v := by
  simp [dictGet?, dictSet, List.find?]

/-- `Storer` (`visual/models/utils.py` lines 8-16): a module holding a
reference to a shared `save_state` dict and a `name`. -/
structure Storer (τ : Type) where
  save_state : List (String × τ)
  name : String

/-- `Storer.forward(x)`: stores `self.save_state[self.name] = x` and
returns `x`; the updated object carries the mutated dict. -/
def Storer.forward (s : Storer τ) (x : τ) : Storer τ × τ :=
  ({ s with save_state := dictSet s.save_state s.name x }, x)

/-- C2: `Storer.forward` returns its input unchanged and afterwards the
shared `save_state` maps the configured name to that input. -/
theorem storer_forward_captures (s : Storer τ) (x : τ) :
    (s.forward x).2 = x
    ∧ dictGet? (s.forward x).1.save_state s.name = some x :=
  ⟨rfl, dictGet_dictSet s.save_state s.name x⟩

/-- A Python value held in a state dict: either a dict (supporting item
assignment) or some other object (on which item assignment raises). -/
inductive PyVal (τ : Type) where
  | dict (d : List (String × τ))
  | other (tag : String)
deriving DecidableEq

/-- `LAYER_DICT` is imported from `visual/__init__.py`, which is not among
the sources; it is an opaque dictionary key and no claim depends on its
value.  Modelled as a fixed string. -/
def LAYER_DICT : String := "layer_dict"

/-- `storer(state, name, x)` (`visual/models/utils.py` lines 19-24): tries
`state[LAYER_DICT][name] = x`; if that raises for any reason (key absent,
or the stored value not supporting item assignment), replaces
`state[LAYER_DICT]` wholesale by the fresh dict `{name: x}`; returns `x`. -/
def storer (state : List (String × PyVal τ)) (name : String) (x : τ) :
    List (String × PyVal τ) × τ :=
  match dictGet? state LAYER_DICT with
  | some (.dict d) => (dictSet state LAYER_DICT (.dict (dictSet d name x)), x)
  | _ => (dictSet state LAYER_DICT (.dict [(name, x)]), x)

/-- C10: `storer` returns `x`, afterwards `state[LAYER_DICT][name] = x`;
when `state[LAYER_DICT]` exists as a dict it is updated in place, and when
the lookup or assignment would raise (key absent or value not a dict) the
entry is replaced wholesale by `{name: x}`, discarding prior contents. -/
theorem storer_spec (state : List (String × PyVal τ)) (name : String) (x : τ) :
    (storer state name x).2 = x
    ∧ (∃ d, dictGet? (storer state name x).1 LAYER_DICT = some (.dict d)
        ∧ dictGet? d name = some x)
    ∧ (∀ d, dictGet? state LAYER_DICT = some (.dict d) →
        dictGet? (storer state name x).1 LAYER_DICT
          = some (.dict (dictSet d name x)))
    ∧ ((∀ d, dictGet? state LAYER_DICT ≠ some (.dict d)) →
        dictGet? (storer state name x).1 LAYER_DICT
          = some (.dict [(name, x)])) := by
  unfold storer
  cases hget : dictGet? state LAYER_DICT with
  | none =>
    refine ⟨rfl, ⟨[(name, x)], dictGet_dictSet .., ?_⟩, ?_, ?_⟩
    · simp [dictGet?, List.find?]
    · intro d hd; simp [hget] at hd
    · intro _; exact dictGet_dictSet ..
  | some v =>
    cases v with
    | dict d =>
      refine ⟨rfl, ⟨dictSet d name x, dictGet_dictSet .., dictGet_dictSet ..⟩,
        ?_, ?_⟩
      · intro d' hd'
        have hdd : d = d' := by
          injection hd' with h
          injection h
        subst hdd
        exact dictGet_dictSet ..
      · intro hno; exact absurd rfl (hno d)
    | other tag =>
      refine ⟨rfl, ⟨[(name, x)], dictGet_dictSet .., ?_⟩, ?_, ?_⟩
      · simp [dictGet?, List.find?]
      · intro d hd; simp at hd
      · intro _; exact dictGet_dictSet ..

/-- Witness for C10 at a concrete state whose `LAYER_DICT` entry is not a
dict, exercising the exception path. -/
theorem storer_spec_witness :
    dictGet? (storer [(LAYER_DICT, PyVal.other "tensor")] "conv1" (5 : Nat)).1
      LAYER_DICT = some (.dict [("conv1", 5)]) :=
  (storer_spec [(LAYER_DICT, PyVal.other "tensor")] "conv1" (5 : Nat)).2.2.2
    (by intro d hd; simp [dictGet?, List.find?] at hd)

/-- A torch module as seen by the flat `model.modules()` iteration: its
exact runtime type name and its `inplace` attribute.  A model is embedded
as the list of modules that `model.modules()` yields. -/
structure PyModule where
  typeName : String
  inplace : Bool
deriving DecidableEq

/-- `_relu_classes` (`visual/models/utils.py` line 5). -/
def _relu_classes : List String :=
  ["ReLU", "ReLU6", "LeakyReLU", "RReLU", "PReLU"]

/-- `relus_to_not_inplace(model)` (`visual/models/utils.py` lines 45-48):
sets `m.inplace = False` on every module whose exact type is listed in
`_relu_classes`, leaving all other modules untouched. -/
def relus_to_not_inplace (model : List PyModule) : List PyModule :=
  model.map (fun m =>
    if m.typeName ∈ _relu_classes then { m with inplace := false } else m)

/-- The object built by the class `basemodel(model)` returns. -/
structure BaseModel where
  modules : List PyModule
  layer_names : List String
  name : String
  qualname : String

/-- `BaseModel.__init__` inside `basemodel(model)` (`visual/models/utils.py`
lines 27-42): runs the wrapped model's constructor (producing the module
list `parent`), then applies `relus_to_not_inplace` to itself, then stores
`layer_names` and copies the wrapped class's names. -/
def basemodel_init (parent : List PyModule) (layer_names : List String)
    (nm qn : String) : BaseModel :=
  { modules := relus_to_not_inplace parent
    layer_names := layer_names
    name := nm
    qualname := qn }

/-- `BaseModel.get_layer_names` (`visual/models/utils.py` lines 36-37). -/
def BaseModel.get_layer_names (b : BaseModel) : List String := b.layer_names

/-- `BaseModel._get_name` (`visual/models/utils.py` lines 39-40). -/
def BaseModel._get_name (b : BaseModel) : String := b.name

/-- C1: constructing the `BaseModel` applies `relus_to_not_inplace`, and
afterwards every module whose exact type is one of the listed activation
classes has `inplace = false`. -/
theorem basemodel_disables_inplace (parent : List PyModule)
    (names : List String) (nm qn : String) :
    (basemodel_init parent names nm qn).modules = relus_to_not_inplace parent
    ∧ ∀ m ∈ (basemodel_init parent names nm qn).modules,
        m.typeName ∈ _relu_classes → m.inplace = false := by
  refine ⟨rfl, ?_⟩
  intro m hm htype
  simp only [basemodel_init, relus_to_not_inplace, List.mem_map] at hm
  obtain ⟨m0, _, rfl⟩ := hm
  by_cases hc : m0.typeName ∈ _relu_classes
  · simp [hc]
  · simp only [if_neg hc] at htype ⊢
    exact absurd htype hc

/-- Witness for C1 at a concrete two-module model. -/
theorem basemodel_disables_inplace_witness :
    (PyModule.mk "ReLU" false).inplace = false :=
  (basemodel_disables_inplace
      [PyModule.mk "ReLU" true, PyModule.mk "Linear" true] ["fc"] "Net" "Net").2
    (PyModule.mk "ReLU" false) (by decide) (by decide)

/-! ### Symbolic tensors for `visual/transforms.py`

The numeric content of `interpolate`, `affine_grid` and `grid_sample` is
owned by the external tensor library; they are embedded as symbolic
constructors carrying exact shape, dtype and device semantics. -/

/-- An angle value as the caller supplies it and as `RandomRotate.__init__`
rewrites it: `degToRad e` stands for `math.pi * e / 180`. -/
inductive AngleE where
  | num (q : ℚ)
  | degToRad (e : AngleE)
deriving DecidableEq

/-- A symbolic scalar appearing in the transform matrix `theta`. -/
inductive ScalarE where
  | zero
  | cosE (a : AngleE)
  | sinE (a : AngleE)
  | negE (e : ScalarE)
deriving DecidableEq

/-- The matrix `theta` built by `RandomRotate.__call__`: its 2×3 entries
(the leading size-1 dim of `torch.zeros((1, 2, 3))` is dropped) and the
dtype and device it was allocated with. -/
structure Theta where
  rows : List (List ScalarE)
  dtype : String
  device : String
deriving DecidableEq

/-- `torch.nn.functional.affine_grid(theta, size)` is determined by the
matrix and the target size; it is embedded as that pair.  The produced
grid has shape `(size[0], size[2], size[3], 2)`. -/
structure SGrid where
  theta : Theta
  size : List Nat
deriving DecidableEq

/-- A symbolic tensor: an abstract input with known shape/dtype/device, or
a library operation applied to one.  `sq0 t` is `t.squeeze(0)` in the case
where dim 0 has size 1 (the only case in which torch removes it). -/
inductive STensor where
  | input (shape : List Nat) (dtype device : String)
  | unsq0 (t : STensor)
  | sq0 (t : STensor)
  | interpolate (t : STensor) (scale : ℚ) (mode : String)
      (alignCorners : Option Bool)
  | gridSample (t : STensor) (grid : SGrid) (mode padding : String)
deriving DecidableEq

/-- Shape semantics of the embedded operations, following torch:
`unsqueeze(0)` prepends a 1; `squeeze(0)` (in its applicable case) drops
the leading dim; `interpolate` with a `scale_factor` multiplies the
spatial dims and floors; `grid_sample` keeps batch and channel dims and
takes its spatial dims from the grid. -/
def STensor.shape : STensor → List Nat
  | .input s _ _ => s
  | .unsq0 t => 1 :: t.shape
  | .sq0 t => t.shape.tail
  | .interpolate t scale _ _ =>
    match t.shape with
    | n :: c :: spatial =>
      n :: c :: spatial.map (fun d => (Int.floor ((d : ℚ) * scale)).toNat)
    | s => s
  | .gridSample t grid _ _ =>
    match t.shape, grid.size with
    | n :: c :: _, _ :: _ :: hw => n :: c :: hw
    | s, _ => s

/-- Dtype propagation: the embedded operations preserve dtype. -/
def STensor.dtype : STensor → String
  | .input _ dt _ => dt
  | .unsq0 t => t.dtype
  | .sq0 t => t.dtype
  | .interpolate t _ _ _ => t.dtype
  | .gridSample t _ _ _ => t.dtype

/-- Device propagation: the embedded operations preserve device. -/
def STensor.device : STensor → String
  | .input _ _ dv => dv
  | .unsq0 t => t.device
  | .sq0 t => t.device
  | .interpolate t _ _ _ => t.device
  | .gridSample t _ _ _ => t.device

/-- `Tensor.squeeze(0)`: removes dim 0 iff it has size 1, otherwise
returns the tensor unchanged. -/
def squeeze0 (t : STensor) : STensor :=
  match t.shape with
  | 1 :: _ => .sq0 t
  | _ => t

/-- `_as_4d` (`visual/transforms.py` lines 36-40): `unsqueeze(0)` on a 3-D
tensor, identity otherwise. -/
def _as_4d (t : STensor) : STensor :=
  if t.shape.length = 3 then .unsq0 t else t

/-- `_as_3d` (`visual/transforms.py` lines 43-47): `squeeze(0)` on a 4-D
tensor, identity otherwise. -/
def _as_3d (t : STensor) : STensor :=
  if t.shape.length = 4 then squeeze0 t else t

/-- `torch.nn.functional.affine_grid(theta, size)`. -/
def affine_grid (theta : Theta) (size : List Nat) : SGrid := ⟨theta, size⟩

/-- `RandomScale` (`visual/transforms.py` lines 50-77): configuration. -/
structure RandomScale where
  _scales : List ℚ
  _mode : String
  _align_corners : Option Bool
  _seed : Option Nat
deriving DecidableEq

/-- `RandomScale.__call__` (lines 69-77): draws a scale and applies one
`interpolate` between the `_as_4d`/`_as_3d` adapters (the
`warnings.catch_warnings` block has no tensor effect).  The object is
returned alongside to record its final attribute values. -/
def RandomScale.call (s : RandomScale) (x : STensor) (st : RandState) :
    Option (RandomScale × STensor × RandState) :=
  match RandomScale.get_params s._scales s._seed st with
  | none => none
  | some (sc, st') =>
    some (s, _as_3d (.interpolate (_as_4d x) sc s._mode s._align_corners), st')

/-- `RandomRotate` (`visual/transforms.py` lines 80-122): configuration
after `__init__` has run (angles already converted as applicable). -/
structure RandomRotate where
  _angles : List AngleE
  _mode : String
  _padding_mode : String
  _seed : Option Nat
deriving DecidableEq

/-- `torch.zeros((1, 2, 3))` with the leading size-1 dim dropped. -/
def zerosTheta : List (List ScalarE) :=
  [[.zero, .zero, .zero], [.zero, .zero, .zero]]

/-- `theta[0, i, j] = v`. -/
def setEntry (m : List (List ScalarE)) (i j : Nat) (v : ScalarE) :
    List (List ScalarE) :=
  m.set i ((m.getD i []).set j v)

/-- The four assignments of `RandomRotate.__call__` lines 107-111, on a
zero matrix carrying the input's dtype and device. -/
def buildTheta (a : AngleE) (dtype device : String) : Theta :=
  { rows := setEntry (setEntry (setEntry (setEntry zerosTheta 0 0 (.cosE a))
      1 1 (.cosE a)) 0 1 (.sinE a)) 1 0 (.negE (.sinE a))
    dtype := dtype
    device := device }

/-- `RandomRotate.__call__` (lines 103-122): `_as_4d`, draw an angle,
build `theta`, one `affine_grid` + `grid_sample`, `_as_3d`. -/
def RandomRotate.call (r : RandomRotate) (x : STensor) (st : RandState) :
    Option (RandomRotate × STensor × RandState) :=
  let x := _as_4d x
  match RandomRotate.get_params r._angles r._seed st with
  | none => none
  | some (a, st') =>
    let theta := buildTheta a x.dtype x.device
    let grid := affine_grid theta x.shape
    some (r, _as_3d (.gridSample x grid r._mode r._padding_mode), st')

theorem squeeze0_of_head_ne_one (t : STensor) (n : Nat) (rest : List Nat)
    (h : t.shape = n :: rest) (hn : n ≠ 1) : squeeze0 t = t := by
  unfold squeeze0
  rw [h]
  rcases n with _ | n
  · rfl
  · rcases n with _ | n
    · exact absurd rfl hn
    · rfl

theorem squeeze0_of_head_one (t : STensor) (rest : List Nat)
    (h : t.shape = 1 :: rest) : squeeze0 t = .sq0 t := by
  unfold squeeze0
  rw [h]

/-- C3 (amended): for a 4-D input and a selected angle, `RandomRotate.__call__`
builds `theta = [[cos a, sin a, 0], [-sin a, cos a, 0]]` in the input's
dtype and device and computes one `grid_sample` of the input over
`affine_grid(theta, x.size())` with the configured mode and padding mode;
the returned tensor is that grid-sample output when the batch size differs
from 1, and its `squeeze(0)` when the batch size is 1. -/
theorem rotate_call_spec (r : RandomRotate) (x : STensor) (st st' : RandState)
    (a : AngleE) (n c h w : Nat)
    (hshape : x.shape = [n, c, h, w])
    (hsel : RandomRotate.get_params r._angles r._seed st = some (a, st')) :
    (buildTheta a x.dtype x.device).rows
        = [[.cosE a, .sinE a, .zero], [.negE (.sinE a), .cosE a, .zero]]
    ∧ (buildTheta a x.dtype x.device).dtype = x.dtype
    ∧ (buildTheta a x.dtype x.device).device = x.device
    ∧ RandomRotate.call r x st
        = some (r, _as_3d (.gridSample x
            (affine_grid (buildTheta a x.dtype x.device) x.shape)
            r._mode r._padding_mode), st')
    ∧ (n ≠ 1 → RandomRotate.call r x st
        = some (r, .gridSample x
            (affine_grid (buildTheta a x.dtype x.device) x.shape)
            r._mode r._padding_mode, st'))
    ∧ (n = 1 → RandomRotate.call r x st
        = some (r, .sq0 (.gridSample x
            (affine_grid (buildTheta a x.dtype x.device) x.shape)
            r._mode r._padding_mode), st')) := by
  have h4 : x.shape.length = 4 := by rw [hshape]; rfl
  have hx4 : _as_4d x = x := by
    unfold _as_4d
    rw [if_neg (by omega)]
  have hgs : (STensor.gridSample x
      (affine_grid (buildTheta a x.dtype x.device) x.shape)
      r._mode r._padding_mode).shape = [n, c, h, w] := by
    show (match x.shape, x.shape with
      | n :: c :: _, _ :: _ :: hw => n :: c :: hw
      | s, _ => s) = [n, c, h, w]
    rw [hshape]
  have hcall : RandomRotate.call r x st
      = some (r, _as_3d (.gridSample x
          (affine_grid (buildTheta a x.dtype x.device) x.shape)
          r._mode r._padding_mode), st') := by
    unfold RandomRotate.call
    rw [hx4, hsel]
  refine ⟨rfl, rfl, rfl, hcall, ?_, ?_⟩
  · intro hn
    rw [hcall]
    unfold _as_3d
    rw [if_pos (by rw [hgs]; rfl),
      squeeze0_of_head_ne_one _ n [c, h, w] hgs hn]
  · intro hn
    subst hn
    rw [hcall]
    unfold _as_3d
    rw [if_pos (by rw [hgs]; rfl), squeeze0_of_head_one _ [c, h, w] hgs]

/-- Witness for C3 (amended) at a concrete batch-2 input. -/
theorem rotate_call_spec_witness :
    RandomRotate.call ⟨[.num 0], "bilinear", "zeros", none⟩
        (.input [2, 3, 4, 4] "float32" "cpu") 0
      = some (⟨[.num 0], "bilinear", "zeros", none⟩,
          .gridSample (.input [2, 3, 4, 4] "float32" "cpu")
            (affine_grid (buildTheta (.num 0) "float32" "cpu") [2, 3, 4, 4])
            "bilinear" "zeros", 1) :=
  (rotate_call_spec ⟨[.num 0], "bilinear", "zeros", none⟩
      (.input [2, 3, 4, 4] "float32" "cpu") 0 1 (.num 0) 2 3 4 4 rfl rfl).2.2.2.2.1
    (by decide)

/-- Counterexample to C3 as stated: for a 4-D input with batch size 1 the
returned tensor is the `squeeze(0)` of the grid-sample output (3-D), not
the grid-sample output itself (4-D). -/
theorem rotate_call_squeezes_batch_one :
    RandomRotate.call ⟨[.num 0], "bilinear", "zeros", none⟩
        (.input [1, 3, 4, 4] "float32" "cpu") 0
      = some (⟨[.num 0], "bilinear", "zeros", none⟩,
          .sq0 (.gridSample (.input [1, 3, 4, 4] "float32" "cpu")
            (affine_grid (buildTheta (.num 0) "float32" "cpu") [1, 3, 4, 4])
            "bilinear" "zeros"), 1)
    ∧ STensor.shape (.sq0 (.gridSample (.input [1, 3, 4, 4] "float32" "cpu")
          (affine_grid (buildTheta (.num 0) "float32" "cpu") [1, 3, 4, 4])
          "bilinear" "zeros"))
        ≠ STensor.shape (.gridSample (.input [1, 3, 4, 4] "float32" "cpu")
          (affine_grid (buildTheta (.num 0) "float32" "cpu") [1, 3, 4, 4])
          "bilinear" "zeros") :=
  ⟨rfl, by decide⟩

/-- A heap of Python list objects holding angle lists; a list object is a
reference (an index) into the heap.  Models that `RandomRotate.__init__`
mutates the caller's list in place and that the object aliases it. -/
abbrev AngleHeap := List (List AngleE)

/-- The `RandomRotate` object as built by `__init__`, holding a reference
to the caller's angles list. -/
structure RandomRotateRef where
  anglesRef : Nat
  _mode : String
  _padding_mode : String
  _seed : Option Nat
deriving DecidableEq

/-- ASCII case folding of one character, as Python's `str.lower` does on
the ASCII unit strings this code compares against. -/
def lowerChar (c : Char) : Char :=
  if c = 'A' then 'a' else if c = 'B' then 'b' else if c = 'C' then 'c'
  else if c = 'D' then 'd' else if c = 'E' then 'e' else if c = 'F' then 'f'
  else if c = 'G' then 'g' else if c = 'H' then 'h' else if c = 'I' then 'i'
  else if c = 'J' then 'j' else if c = 'K' then 'k' else if c = 'L' then 'l'
  else if c = 'M' then 'm' else if c = 'N' then 'n' else if c = 'O' then 'o'
  else if c = 'P' then 'p' else if c = 'Q' then 'q' else if c = 'R' then 'r'
  else if c = 'S' then 's' else if c = 'T' then 't' else if c = 'U' then 'u'
  else if c = 'V' then 'v' else if c = 'W' then 'w' else if c = 'X' then 'x'
  else if c = 'Y' then 'y' else if c = 'Z' then 'z' else c

/-- Python's `str.lower()` (on ASCII strings). -/
def pyLower (s : String) : String := ⟨s.data.map lowerChar⟩

/-- `RandomRotate.__init__` (`visual/transforms.py` lines 90-97): when
`units.lower()` is `'degrees'`, `'degs'` or `'deg'`, each entry `a` of the
caller's list is overwritten in place with `math.pi * a / 180.`; the
object stores a reference to that same list together with the mode,
padding mode and seed. -/
def RandomRotate.init (heap : AngleHeap) (ref : Nat)
    (units mode padding : String) (seed : Option Nat) :
    AngleHeap × RandomRotateRef :=
  let heap :=
    if pyLower units ∈ ["degrees", "degs", "deg"]
    then heap.set ref ((heap.getD ref []).map AngleE.degToRad)
    else heap
  (heap, ⟨ref, mode, padding, seed⟩)

/-- C9: `RandomRotate.__init__` mutates the caller's angles list in place
(every entry `a` becomes `π·a/180`) exactly when the lower-cased units are
`'degrees'`, `'degs'` or `'deg'`; the object aliases that same list; for
any other units the heap is untouched and the entries are kept as given
(radians). -/
theorem rotate_init_mutates_angles (heap : AngleHeap) (ref : Nat)
    (units mode padding : String) (seed : Option Nat)
    (href : ref < heap.length) :
    (RandomRotate.init heap ref units mode padding seed).2.anglesRef = ref
    ∧ (pyLower units ∈ ["degrees", "degs", "deg"] →
        (RandomRotate.init heap ref units mode padding seed).1
          = heap.set ref ((heap.getD ref []).map AngleE.degToRad)
        ∧ ((RandomRotate.init heap ref units mode padding seed).1).getD ref []
          = (heap.getD ref []).map AngleE.degToRad)
    ∧ (pyLower units ∉ ["degrees", "degs", "deg"] →
        (RandomRotate.init heap ref units mode padding seed).1 = heap) := by
  unfold RandomRotate.init
  by_cases hu : pyLower units ∈ ["degrees", "degs", "deg"]
  · refine ⟨rfl, fun _ => ⟨by simp [hu], ?_⟩, fun hnot => absurd hu hnot⟩
    simp only [hu, if_pos]
    simp [List.getD, List.getElem?_set_self, href]
  · exact ⟨rfl, fun hyes => absurd hyes hu, fun _ => by simp [hu]⟩

/-- Witness for C9: a one-list heap with `units = 'Degrees'`. -/
theorem rotate_init_mutates_angles_witness :
    (RandomRotate.init [[AngleE.num 90]] 0 "Degrees" "bilinear" "zeros" none).1
      = [[AngleE.num 90]].set 0 (([[AngleE.num 90]].getD 0 []).map AngleE.degToRad)
    ∧ ((RandomRotate.init [[AngleE.num 90]] 0 "Degrees" "bilinear" "zeros"
        none).1).getD 0 []
      = ([[AngleE.num 90]].getD 0 []).map AngleE.degToRad :=
  (rotate_init_mutates_angles [[AngleE.num 90]] 0 "Degrees" "bilinear" "zeros"
      none (by decide)).2.1 (by decide)

/-! ### Concrete 3-D tensors -/

/-- A 3-D tensor `(C, H, W)` as nested lists of rationals. -/
abbrev T3 := List (List (List ℚ))

/-- A 3-D tensor together with the device it lives on. -/
structure DTensor3 where
  device : String
  data : T3
deriving DecidableEq

/-- `t.size(1)`: the height, read off the first channel (agrees with the
torch size for rectangular tensors with at least one channel). -/
def size1 (t : T3) : Nat := (t.headD []).length

/-- `t.size(2)`: the width, read off the first row of the first channel. -/
def size2 (t : T3) : Nat := ((t.headD []).headD []).length

/-- `isRect3 t C H W`: `t` is rectangular of shape `(C, H, W)`. -/
def isRect3 (t : T3) (C H W : Nat) : Bool :=
  t.length == C &&
    t.all (fun ch => ch.length == H && ch.all (fun row => row.length == W))

theorem isRect3_iff (t : T3) (C H W : Nat) :
    isRect3 t C H W = true ↔
      (t.length = C ∧ ∀ ch ∈ t, ch.length = H ∧ ∀ row ∈ ch, row.length = W) := by
  simp [isRect3, List.all_eq_true]

/-- Clamp a Python slice bound into `[0, n]`; a negative index counts from
the end of the list. -/
def sliceIdx (n : Nat) (i : Int) : Nat :=
  if i < 0 then (i + n).toNat else min i.toNat n

/-- Python slicing `xs[a:b]`. -/
def slicePy (xs : List α) (a b : Int) : List α :=
  (xs.drop (sliceIdx xs.length a)).take
    (sliceIdx xs.length b - sliceIdx xs.length a)

theorem slicePy_length (xs : List α) (a b : Int)
    (ha : 0 ≤ a) (hab : a ≤ b) (hb : b ≤ (xs.length : Int)) :
    (slicePy xs a b).length = (b - a).toNat := by
  unfold slicePy sliceIdx
  rw [if_neg (not_lt.2 ha), if_neg (not_lt.2 (le_trans ha hab))]
  simp only [List.length_take, List.length_drop]
  omega

theorem slicePy_mem (xs : List α) (a b : Int) (x : α)
    (hx : x ∈ slicePy xs a b) : x ∈ xs :=
  List.mem_of_mem_drop (List.mem_of_mem_take hx)

/-- `SpatialJitter` (`visual/transforms.py` lines 149-166): configuration. -/
structure SpatialJitter where
  _pixels : Int
  _seed : Option Nat
deriving DecidableEq

/-- `SpatialJitter.__call__` (lines 160-166): `_as_3d` (identity on the
3-D tensors embedded here), draw `(x_offset, y_offset)`, then return
`img[:, x_offset : size(1) - (pixels - x_offset),
y_offset : size(2) - (pixels - y_offset)]`. -/
def SpatialJitter.call (s : SpatialJitter) (img : DTensor3) (st : RandState) :
    Option (SpatialJitter × DTensor3 × RandState) :=
  match SpatialJitter.get_params s._pixels s._seed st with
  | none => none
  | some (x0, y0, st') =>
    let xEnd : Int := (size1 img.data : Int) - (s._pixels - x0)
    let yEnd : Int := (size2 img.data : Int) - (s._pixels - y0)
    some (s, { device := img.device,
               data := img.data.map (fun ch =>
                 (slicePy ch x0 xEnd).map (fun row => slicePy row y0 yEnd)) },
      st')

theorem randint_sound (lo hi : Int) (s : RandState) (v : Int) (s' : RandState)
    (h : randint lo hi s = some (v, s')) : lo ≤ v ∧ v ≤ hi := by
  unfold randint at h
  by_cases hlt : hi < lo
  · rw [if_pos hlt] at h; exact Option.noConfusion h
  · rw [if_neg hlt] at h
    simp only [Option.some.injEq, Prod.mk.injEq] at h
    obtain ⟨h1, _⟩ := h
    subst h1
    have hnn := Int.emod_nonneg (s : Int)
      (by omega : hi - lo + 1 ≠ 0)
    have hub := Int.emod_lt_of_pos (s : Int)
      (by omega : (0 : Int) < hi - lo + 1)
    omega

theorem get_params_sound (pixels : Int) (seed : Option Nat) (st : RandState)
    (x0 y0 : Int) (st' : RandState)
    (h : SpatialJitter.get_params pixels seed st = some (x0, y0, st')) :
    0 ≤ x0 ∧ x0 ≤ pixels ∧ 0 ≤ y0 ∧ y0 ≤ pixels := by
  simp only [SpatialJitter.get_params] at h
  rcases h1 : randint 0 pixels (seedOr seed st) with _ | ⟨vx, vst⟩
  · rw [h1] at h; simp at h
  · rw [h1] at h
    simp only at h
    rcases h2 : randint 0 pixels vst with _ | ⟨ux, ust⟩
    · rw [h2] at h; simp at h
    · rw [h2] at h
      simp only [Option.some.injEq, Prod.mk.injEq] at h
      obtain ⟨hx, hy, _⟩ := h
      subst hx; subst hy
      obtain ⟨ha1, ha2⟩ := randint_sound _ _ _ _ _ h1
      obtain ⟨hb1, hb2⟩ := randint_sound _ _ _ _ _ h2
      exact ⟨ha1, ha2, hb1, hb2⟩

/-- C4: for a rectangular `(C, H, W)` image and `0 ≤ p ≤ min(H, W)`, the
drawn offsets lie in `{0, …, p}`, the output is exactly the slice
`img[:, x0 : H-(p-x0), y0 : W-(p-y0)]`, and its shape is `(C, H-p, W-p)`
regardless of the offsets drawn. -/
theorem spatial_jitter_spec (s : SpatialJitter) (img : DTensor3)
    (st st' : RandState) (C H W p : Nat) (x0 y0 : Int)
    (hpix : s._pixels = (p : Int))
    (hrect : isRect3 img.data C H W = true)
    (hC : 0 < C) (hH : 0 < H) (hpH : p ≤ H) (hpW : p ≤ W)
    (hsel : SpatialJitter.get_params s._pixels s._seed st
      = some (x0, y0, st')) :
    0 ≤ x0 ∧ x0 ≤ (p : Int) ∧ 0 ≤ y0 ∧ y0 ≤ (p : Int)
    ∧ SpatialJitter.call s img st = some (s, DTensor3.mk img.device
        (img.data.map (fun ch =>
          (slicePy ch x0 ((H : Int) - ((p : Int) - x0))).map (fun row =>
            slicePy row y0 ((W : Int) - ((p : Int) - y0))))), st')
    ∧ isRect3 (img.data.map (fun ch =>
          (slicePy ch x0 ((H : Int) - ((p : Int) - x0))).map (fun row =>
            slicePy row y0 ((W : Int) - ((p : Int) - y0)))))
        C (H - p) (W - p) = true := by
  obtain ⟨hb0, hb1, hb2, hb3⟩ := get_params_sound _ _ _ _ _ _ hsel
  rw [hpix] at hb1 hb3
  obtain ⟨hlen, hall⟩ := (isRect3_iff _ _ _ _).mp hrect
  have hsz1 : size1 img.data = H := by
    cases hd : img.data with
    | nil => rw [hd] at hlen; simp at hlen; omega
    | cons ch rest =>
      have := (hall ch (by rw [hd]; exact List.mem_cons_self ..)).1
      simp [size1, hd, this]
  have hsz2 : size2 img.data = W := by
    cases hd : img.data with
    | nil => rw [hd] at hlen; simp at hlen; omega
    | cons ch rest =>
      obtain ⟨hch, hrows⟩ := hall ch (by rw [hd]; exact List.mem_cons_self ..)
      cases hc : ch with
      | nil => rw [hc] at hch; simp at hch; omega
      | cons row rrest =>
        have := hrows row (by rw [hc]; exact List.mem_cons_self ..)
        simp [size2, hd, hc, this]
  have hcall : SpatialJitter.call s img st = some (s, DTensor3.mk img.device
      (img.data.map (fun ch =>
        (slicePy ch x0 ((H : Int) - ((p : Int) - x0))).map (fun row =>
          slicePy row y0 ((W : Int) - ((p : Int) - y0))))), st') := by
    have hsel' := hsel
    rw [hpix] at hsel'
    simp only [SpatialJitter.call, hsz1, hsz2, hpix, hsel']
  refine ⟨hb0, hb1, hb2, hb3, hcall, ?_⟩
  rw [isRect3_iff]
  refine ⟨by simp [hlen], ?_⟩
  intro ch2 hch2
  rw [List.mem_map] at hch2
  obtain ⟨ch, hch, rfl⟩ := hch2
  obtain ⟨hchH, hrowsW⟩ := hall ch hch
  constructor
  · rw [List.length_map,
      slicePy_length ch x0 ((H : Int) - ((p : Int) - x0)) hb0 (by omega)
        (by rw [hchH]; omega)]
    omega
  · intro row2 hrow2
    rw [List.mem_map] at hrow2
    obtain ⟨row, hrow, rfl⟩ := hrow2
    have hrowW := hrowsW row (slicePy_mem _ _ _ _ hrow)
    rw [slicePy_length row y0 ((W : Int) - ((p : Int) - y0)) hb2 (by omega)
        (by rw [hrowW]; omega)]
    omega

/-- Witness for C4: a `(1, 2, 2)` image with one jitter pixel and seed 3;
the sliced output is rectangular of shape `(1, 1, 1)`. -/
theorem spatial_jitter_spec_witness :
    isRect3 (([[[(1 : ℚ), 2], [3, 4]]] : T3).map (fun ch =>
      (slicePy ch 0 ((((2 : Nat)) : Int) - ((((1 : Nat)) : Int) - 0))).map
        (fun row =>
          slicePy row 1 ((((2 : Nat)) : Int) - ((((1 : Nat)) : Int) - 1)))))
      1 (2 - 1) (2 - 1) = true :=
  (spatial_jitter_spec ⟨1, some 3⟩ ⟨"cpu", [[[1, 2], [3, 4]]]⟩ 0 6 1 2 2 1 0 1
    rfl (by decide) (by decide) (by decide) (by decide) (by decide)
    (by decide)).2.2.2.2.2

/-! ### `RandomAlpha` -/

/-- Elementwise combination of two matrices. -/
def ewMat (f : ℚ → ℚ → ℚ) (a b : List (List ℚ)) : List (List ℚ) :=
  List.zipWith (List.zipWith f) a b

/-- Torch elementwise binary op on two 3-D tensors whose trailing `(H, W)`
dims agree, broadcasting a size-1 channel dim (the only broadcasting this
code exercises). -/
def bcastCh (f : ℚ → ℚ → ℚ) (a b : T3) : T3 :=
  let a2 := if a.length == 1 && b.length != 1
    then List.replicate b.length (a.headD []) else a
  let b2 := if b.length == 1 && a.length != 1
    then List.replicate a.length (b.headD []) else b
  List.zipWith (ewMat f) a2 b2

/-- A scalar function mapped over every element of a 3-D tensor (used for
`1 - alpha`). -/
def mapT3 (f : ℚ → ℚ) (t : T3) : T3 :=
  t.map (fun m => m.map (fun r => r.map f))

/-- Modelled from the spec: `FFTImage` comes from `visual/images.py`,
which is not among the sources.  The spec describes it as "an image
represented in frequency space and inverse-transformed to pixel space
before use, improving optimization smoothness".  The claims depend only on
the synthesized image being a tensor of the requested `(C', H, W)` size
whose values come from the torch generator state `trng`; the pixel values
are an unspecified-but-fixed function of the parameters, and the pixelwise
`.sigmoid().get_valid_image()` post-processing is folded in. -/
def fftImageValid (size : List Nat) (correlate : Bool) (sd decay_power : ℚ)
    (trng : Nat) : T3 :=
  match size with
  | [c, h, w] =>
    List.replicate c (List.replicate h (List.replicate w
      ((trng : ℚ) / ((trng : ℚ) + 1 + sd * sd + decay_power * decay_power
        + (if correlate then 1 else 0)))))
  | _ => []

/-- `.to(device)` on the synthesized image: device placement. -/
def fftImageTo (size : List Nat) (correlate : Bool) (sd decay_power : ℚ)
    (device : String) (trng : Nat) : DTensor3 :=
  ⟨device, fftImageValid size correlate sd decay_power trng⟩

/-- `RandomAlpha` (`visual/transforms.py` lines 125-146): configuration. -/
structure RandomAlpha where
  _sd : ℚ
  _decay_power : ℚ
  _colour : Bool
deriving DecidableEq

/-- `RandomAlpha.__call__` (lines 138-146), on a 3-D input (`_as_3d` is
the identity there): synthesize a random FFT image of size
`(C-1 if colour else 1, H, W)` on the input's device, take the last
channel repeated over `C-1` channels as the alpha mask, and composite
`x[:-1] * alpha + random_image * (1 - alpha)`.  `trng` is the torch
generator state, advanced by the synthesis. -/
def RandomAlpha.call (ra : RandomAlpha) (x : DTensor3) (trng : Nat) :
    RandomAlpha × DTensor3 × Nat :=
  let size0 := if ra._colour then x.data.length - 1 else 1
  let random_image : DTensor3 :=
    fftImageTo [size0, size1 x.data, size2 x.data] ra._colour ra._sd
      ra._decay_power x.device trng
  let alpha : T3 := List.replicate (x.data.length - 1) (x.data.getLastD [])
  let image := bcastCh (· * ·) (x.data.take (x.data.length - 1)) alpha
  let random_image2 :=
    bcastCh (· * ·) random_image.data (mapT3 (fun q => 1 - q) alpha)
  (ra, ⟨x.device, bcastCh (· + ·) image random_image2⟩, trng + 1)

theorem mem_zipWith_vis {f : β → γ → δ} {l1 : List β} {l2 : List γ} {z : δ}
    (h : z ∈ List.zipWith f l1 l2) : ∃ x ∈ l1, ∃ y ∈ l2, z = f x y := by
  induction l1 generalizing l2 with
  | nil => simp at h
  | cons x xs ih =>
    cases l2 with
    | nil => simp at h
    | cons y ys =>
      rw [List.zipWith_cons_cons] at h
      rcases List.mem_cons.mp h with h | h
      · exact ⟨x, List.mem_cons_self .., y, List.mem_cons_self .., h⟩
      · obtain ⟨u, hu, v, hv, rfl⟩ := ih h
        exact ⟨u, List.mem_cons_of_mem _ hu, v, List.mem_cons_of_mem _ hv, rfl⟩

theorem getLastD_mem_vis : ∀ (l : List α), l ≠ [] → ∀ d, l.getLastD d ∈ l := by
  intro l
  induction l with
  | nil => intro h; exact absurd rfl h
  | cons a t ih =>
    intro _ d
    cases t with
    | nil => simp [List.getLastD]
    | cons b t2 =>
      rw [List.getLastD_cons]
      exact List.mem_cons_of_mem a (ih (by simp) a)

theorem rect3_zipWith_ewMat (f : ℚ → ℚ → ℚ) (a b : T3) (n H W : Nat)
    (ha : isRect3 a n H W = true) (hb : isRect3 b n H W = true) :
    isRect3 (List.zipWith (ewMat f) a b) n H W = true := by
  rw [isRect3_iff] at ha hb ⊢
  obtain ⟨hal, has⟩ := ha
  obtain ⟨hbl, hbs⟩ := hb
  refine ⟨by simp [List.length_zipWith, hal, hbl], ?_⟩
  intro ch hch
  obtain ⟨u, hu, v, hv, rfl⟩ := mem_zipWith_vis hch
  obtain ⟨huH, huW⟩ := has u hu
  obtain ⟨hvH, hvW⟩ := hbs v hv
  refine ⟨by simp [ewMat, List.length_zipWith, huH, hvH], ?_⟩
  intro row hrow
  obtain ⟨r1, hr1, r2, hr2, rfl⟩ := mem_zipWith_vis hrow
  simp [List.length_zipWith, huW r1 hr1, hvW r2 hr2]

theorem rect3_replicate (ch : List (List ℚ)) (m H W : Nat)
    (hH : ch.length = H) (hW : ∀ row ∈ ch, row.length = W) :
    isRect3 (List.replicate m ch) m H W = true := by
  rw [isRect3_iff]
  refine ⟨by simp, ?_⟩
  intro c hc
  rw [List.eq_of_mem_replicate hc]
  exact ⟨hH, hW⟩

theorem rect3_headD (a : T3) (n H W : Nat)
    (ha : isRect3 a n H W = true) (hn : 0 < n) :
    (a.headD []).length = H ∧ ∀ row ∈ a.headD [], row.length = W := by
  rw [isRect3_iff] at ha
  obtain ⟨hal, has⟩ := ha
  cases a with
  | nil => simp at hal; omega
  | cons ch rest => exact has ch (List.mem_cons_self ..)

theorem bcastCh_rect_to (f : ℚ → ℚ → ℚ) (a b : T3) (n m H W : Nat)
    (ha : isRect3 a n H W = true) (hb : isRect3 b m H W = true)
    (hm : 0 < m) (hnm : n = m ∨ n = 1) :
    isRect3 (bcastCh f a b) m H W = true := by
  have hal : a.length = n := ((isRect3_iff ..).mp ha).1
  have hbl : b.length = m := ((isRect3_iff ..).mp hb).1
  by_cases heq : n = m
  · subst heq
    have ha2 : (if a.length == 1 && b.length != 1
        then List.replicate b.length (a.headD []) else a) = a := by
      by_cases h1 : n = 1
      · simp [hal, hbl, h1]
      · simp [hal, hbl, h1]
    have hb2 : (if b.length == 1 && a.length != 1
        then List.replicate a.length (b.headD []) else b) = b := by
      by_cases h1 : n = 1
      · simp [hal, hbl, h1]
      · simp [hal, hbl, h1]
    unfold bcastCh
    rw [ha2, hb2]
    exact rect3_zipWith_ewMat f a b n H W ha hb
  · rcases hnm with h | h1
    · exact absurd h heq
    · have hm1 : m ≠ 1 := by omega
      have ha2 : (if a.length == 1 && b.length != 1
          then List.replicate b.length (a.headD []) else a)
          = List.replicate m (a.headD []) := by
        simp [hal, hbl, h1, hm1]
      have hb2 : (if b.length == 1 && a.length != 1
          then List.replicate a.length (b.headD []) else b) = b := by
        simp [hal, hbl, h1, hm1]
      unfold bcastCh
      rw [ha2, hb2]
      obtain ⟨hhH, hhW⟩ := rect3_headD a n H W ha (by omega)
      exact rect3_zipWith_ewMat f _ b m H W
        (rect3_replicate _ m H W hhH hhW) hb

theorem rect3_take (x : T3) (C H W k : Nat)
    (hx : isRect3 x C H W = true) (hk : k ≤ C) :
    isRect3 (x.take k) k H W = true := by
  rw [isRect3_iff] at hx ⊢
  obtain ⟨hl, hs⟩ := hx
  refine ⟨by simp [hl]; omega, ?_⟩
  intro ch hch
  exact hs ch (List.mem_of_mem_take hch)

theorem rect3_mapT3 (f : ℚ → ℚ) (x : T3) (C H W : Nat)
    (hx : isRect3 x C H W = true) :
    isRect3 (mapT3 f x) C H W = true := by
  rw [isRect3_iff] at hx ⊢
  obtain ⟨hl, hs⟩ := hx
  refine ⟨by simp [mapT3, hl], ?_⟩
  intro ch hch
  simp only [mapT3, List.mem_map] at hch
  obtain ⟨m, hm, rfl⟩ := hch
  obtain ⟨hmH, hmW⟩ := hs m hm
  refine ⟨by simp [hmH], ?_⟩
  intro row hrow
  simp only [List.mem_map] at hrow
  obtain ⟨r, hr, rfl⟩ := hrow
  simp [hmW r hr]

theorem rect3_fftImageValid (c h w : Nat) (co : Bool) (sd dp : ℚ) (g : Nat) :
    isRect3 (fftImageValid [c, h, w] co sd dp g) c h w = true := by
  rw [isRect3_iff]
  refine ⟨by simp [fftImageValid], ?_⟩
  intro ch hch
  simp only [fftImageValid] at hch
  rw [List.eq_of_mem_replicate hch]
  refine ⟨by simp, ?_⟩
  intro row hrow
  rw [List.eq_of_mem_replicate hrow]
  simp

theorem rect3_sizes (t : T3) (C H W : Nat)
    (ht : isRect3 t C H W = true) (hC : 0 < C) (hH : 0 < H) :
    size1 t = H ∧ size2 t = W := by
  obtain ⟨hlH, hlW⟩ := rect3_headD t C H W ht hC
  refine ⟨by simpa [size1] using hlH, ?_⟩
  cases hch : t.headD [] with
  | nil => rw [hch] at hlH; simp at hlH; omega
  | cons row rrest =>
    have hw := hlW row (by rw [hch]; exact List.mem_cons_self ..)
    show ((t.headD []).headD []).length = W
    rw [hch]
    simpa using hw

/-- C5: for a 3-D input with `C ≥ 2` channels, `RandomAlpha.__call__`
composites `x[:-1] * alpha + r * (1 - alpha)`, where `alpha` is the last
channel repeated over `C-1` channels and `r` is a freshly synthesized
random FFT image placed on `x`'s device; the result lives on `x`'s device
and is rectangular of shape `(C-1, H, W)`. -/
theorem random_alpha_spec (ra : RandomAlpha) (x : DTensor3) (trng : Nat)
    (C H W : Nat) (hrect : isRect3 x.data C H W = true)
    (hC : 2 ≤ C) (hH : 0 < H) :
    (RandomAlpha.call ra x trng).2.1.device = x.device
    ∧ (RandomAlpha.call ra x trng).2.1.data
        = bcastCh (· + ·)
            (bcastCh (· * ·) (x.data.take (C - 1))
              (List.replicate (C - 1) (x.data.getLastD [])))
            (bcastCh (· * ·)
              (fftImageTo [if ra._colour then C - 1 else 1, H, W] ra._colour
                ra._sd ra._decay_power x.device trng).data
              (mapT3 (fun q => 1 - q)
                (List.replicate (C - 1) (x.data.getLastD []))))
    ∧ isRect3 (RandomAlpha.call ra x trng).2.1.data (C - 1) H W = true
    ∧ (RandomAlpha.call ra x trng).2.2 = trng + 1 := by
  have hxl : x.data.length = C := ((isRect3_iff ..).mp hrect).1
  obtain ⟨hsz1, hsz2⟩ := rect3_sizes x.data C H W hrect (by omega) hH
  have hlast : isRect3 (List.replicate (C - 1) (x.data.getLastD []))
      (C - 1) H W = true := by
    have hmem : x.data.getLastD [] ∈ x.data :=
      getLastD_mem_vis x.data (by
        intro hnil
        rw [hnil] at hxl
        simp at hxl
        omega) []
    obtain ⟨hlH, hlW⟩ := ((isRect3_iff ..).mp hrect).2 _ hmem
    exact rect3_replicate _ (C - 1) H W hlH hlW
  have hdata : (RandomAlpha.call ra x trng).2.1.data
      = bcastCh (· + ·)
          (bcastCh (· * ·) (x.data.take (C - 1))
            (List.replicate (C - 1) (x.data.getLastD [])))
          (bcastCh (· * ·)
            (fftImageTo [if ra._colour then C - 1 else 1, H, W] ra._colour
              ra._sd ra._decay_power x.device trng).data
            (mapT3 (fun q => 1 - q)
              (List.replicate (C - 1) (x.data.getLastD [])))) := by
    simp only [RandomAlpha.call, hxl, hsz1, hsz2]
  refine ⟨rfl, hdata, ?_, rfl⟩
  rw [hdata]
  have himage : isRect3 (bcastCh (· * ·) (x.data.take (C - 1))
      (List.replicate (C - 1) (x.data.getLastD []))) (C - 1) H W = true :=
    bcastCh_rect_to _ _ _ (C - 1) (C - 1) H W
      (rect3_take x.data C H W (C - 1) hrect (by omega)) hlast
      (by omega) (Or.inl rfl)
  have hrand : isRect3 (bcastCh (· * ·)
      (fftImageTo [if ra._colour then C - 1 else 1, H, W] ra._colour
        ra._sd ra._decay_power x.device trng).data
      (mapT3 (fun q => 1 - q)
        (List.replicate (C - 1) (x.data.getLastD [])))) (C - 1) H W
      = true := by
    refine bcastCh_rect_to _ _ _ (if ra._colour then C - 1 else 1) (C - 1)
      H W ?_ (rect3_mapT3 _ _ (C - 1) H W hlast) (by omega) ?_
    · exact rect3_fftImageValid _ H W ra._colour ra._sd ra._decay_power trng
    · cases ra._colour with
      | true => exact Or.inl (by simp)
      | false => exact Or.inr (by simp)
  exact bcastCh_rect_to _ _ _ (C - 1) (C - 1) H W himage hrand (by omega)
    (Or.inl rfl)

/-- Witness for C5: a `(2, 1, 1)` image; the composite has shape
`(1, 1, 1)` on the input's device. -/
theorem random_alpha_spec_witness :
    (RandomAlpha.call ⟨1, 1, true⟩ ⟨"cuda", [[[(2 : ℚ)]], [[(3 : ℚ)]]]⟩
      7).2.1.device = "cuda"
    ∧ isRect3 (RandomAlpha.call ⟨1, 1, true⟩
        ⟨"cuda", [[[(2 : ℚ)]], [[(3 : ℚ)]]]⟩ 7).2.1.data (2 - 1) 1 1 = true := by
  have h := random_alpha_spec ⟨1, 1, true⟩ ⟨"cuda", [[[(2 : ℚ)]], [[(3 : ℚ)]]]⟩
    7 2 1 1 (by decide) (by decide) (by decide)
  exact ⟨h.1, h.2.2.1⟩

/-! ### `Compose` and statelessness -/

/-- `Compose` (`visual/transforms.py` lines 11-25): a list of transforms;
each stored transform is embedded as a function from an input and the
global random state to an optional result (`none` when it raises). -/
structure Compose (α : Type) where
  _transforms : List (α → RandState → Option (α × RandState))

/-- The loop of `Compose.__call__` (lines 22-25): apply each transform in
order, threading the global random state. -/
def composeRun (ts : List (α → RandState → Option (α × RandState)))
    (x : α) (st : RandState) : Option (α × RandState) :=
  match ts with
  | [] => some (x, st)
  | t :: rest =>
    match t x st with
    | none => none
    | some (x2, st2) => composeRun rest x2 st2

/-- `Compose.__call__`, returning the object alongside to record its final
attribute values. -/
def Compose.call (c : Compose α) (x : α) (st : RandState) :
    Option (Compose α × α × RandState) :=
  (composeRun c._transforms x st).map (fun r => (c, r.1, r.2))

/-- C7: every transform is stateless across calls: `__call__` of
`RandomScale`, `RandomRotate`, `RandomAlpha`, `SpatialJitter` and
`Compose` returns the object with every configuration field unchanged
(the embedded calls return the final object; it equals the initial one). -/
theorem transforms_stateless (sc : RandomScale) (rr : RandomRotate)
    (ra : RandomAlpha) (sj : SpatialJitter) (co : Compose β)
    (xs xr : STensor) (xa xj : DTensor3) (xc : β) (st : RandState)
    (trng : Nat) :
    (match RandomScale.call sc xs st with
      | some out => out.1 = sc
      | none => True)
    ∧ (match RandomRotate.call rr xr st with
      | some out => out.1 = rr
      | none => True)
    ∧ (RandomAlpha.call ra xa trng).1 = ra
    ∧ (match SpatialJitter.call sj xj st with
      | some out => out.1 = sj
      | none => True)
    ∧ (match Compose.call co xc st with
      | some out => out.1 = co
      | none => True) := by
  refine ⟨?_, ?_, rfl, ?_, ?_⟩
  · unfold RandomScale.call
    rcases RandomScale.get_params sc._scales sc._seed st with _ | ⟨v, st2⟩
    · trivial
    · exact rfl
  · unfold RandomRotate.call
    rcases RandomRotate.get_params rr._angles rr._seed st with _ | ⟨a, st2⟩
    · trivial
    · exact rfl
  · unfold SpatialJitter.call
    rcases SpatialJitter.get_params sj._pixels sj._seed st with _ | ⟨a, b, st2⟩
    · trivial
    · exact rfl
  · cases h : composeRun co._transforms xc st with
    | none => simp [Compose.call, h]
    | some r => simp [Compose.call, h]

end Visual
